import Mathlib

/-!
Verification development for the Dynamic Event Hub repository.

The development shallowly embeds the parts of the code base the claims
refer to:

* `src/backend/models/Event.js` — the Event document model, its virtual
  getter `availableTickets`, the instance method `getAvailableSpots`, and
  the static query `findUpcoming`;
* `src/backend/socket/socketHandler.js` — the Socket.io authentication
  middleware, connection registration, the `join_event`, `event_update`,
  `send_event_message`, `send_notification`, `request_event_stats` and
  `attendee_checkin` handlers, and the `disconnect` handler with its
  bookkeeping maps `activeConnections`, `userSockets`, `eventRooms`;
* the Angular `AuthService` (client) — `handleError`, `handleLogout`,
  `clearAuthState`, `scheduleTokenRefresh`, `clearTokenRefreshTimer`.

JavaScript `Map` values are embedded as association lists with unique
keys, `Set` values as duplicate-free lists, dates as milliseconds since
the epoch (`Nat`), and Mongo documents as Lean structures.  Database
access is embedded as a function from ids to optional documents.
-/

namespace EventHub

/-- One entry of `pricing.tickets` in the Event schema.  Numeric fields are
integers; the schema only bounds `quantity ≥ 1` and `price ≥ 0`, `sold`
defaults to `0`. -/
structure Ticket where
  name : String
  price : Int
  quantity : Int
  sold : Int
  deriving DecidableEq, Repr

/-- The `pricing` sub-document: `tickets` may be absent (JS `undefined`). -/
structure Pricing where
  ptype : String
  currency : String
  tickets : Option (List Ticket)
  deriving DecidableEq, Repr

/-- The `registration` sub-document.  `maxAttendees` has no default, so it
may be absent; `currentAttendees` defaults to 0. -/
structure RegistrationSettings where
  maxAttendees : Option Nat
  currentAttendees : Nat
  deriving DecidableEq, Repr

/-- One entry of the `attendees` array: a sub-document with its own `_id`,
a user reference, a status string and an optional check-in time. -/
structure Attendee where
  _id : String
  user : String
  status : String
  checkInTime : Option Nat
  deriving DecidableEq, Repr

/-- The `features` sub-document (only `hasChat` is consulted by the socket
handlers). -/
structure Features where
  hasChat : Bool
  deriving DecidableEq, Repr

/-- The Event document, restricted to the fields read or written by the
code under verification. -/
structure Event where
  title : String
  startDate : Nat
  status : String
  visibility : String
  organizer : String
  attendees : List Attendee
  pricing : Pricing
  registration : RegistrationSettings
  features : Features
  deriving DecidableEq, Repr

/-- Database of Event documents, keyed by id (`Event.findById`). -/
def EventDb : Type := String → Option Event

/-- Virtual getter `availableTickets` of the Event schema: `0` when
`pricing.tickets` is absent, otherwise the reduce of
`total + (ticket.quantity - ticket.sold)` starting from `0`. -/
def availableTickets (e : Event) : Int :=
  match e.pricing.tickets with
  | none => 0
  | some ts => ts.foldl (fun total t => total + (t.quantity - t.sold)) 0

/-- Result of `getAvailableSpots`: JavaScript `Infinity` or a finite
(possibly negative) number. -/
inductive Spots where
  | infinite
  | finite (n : Int)
  deriving DecidableEq, Repr

/-- Instance method `getAvailableSpots`: `Infinity` when
`registration.maxAttendees` is falsy (absent or 0), otherwise
`maxAttendees - currentAttendees`. -/
def getAvailableSpots (e : Event) : Spots :=
  match e.registration.maxAttendees with
  | none => .infinite
  | some 0 => .infinite
  | some m => .finite ((m : Int) - (e.registration.currentAttendees : Int))

/-- Filter of the static query `findUpcoming`: `startDate ≥ now`,
`status = 'published'`, `visibility = 'public'`. -/
def upcomingFilter (now : Nat) (e : Event) : Bool :=
  decide (now ≤ e.startDate) && e.status == "published" && e.visibility == "public"

/-- Sort key of `findUpcoming` (`.sort({ startDate: 1 })`): ascending
comparison on `startDate`. -/
def startDateLe (a b : Event) : Prop := a.startDate ≤ b.startDate

instance : DecidableRel startDateLe := fun a b => Nat.decLe a.startDate b.startDate

/-- Static query `findUpcoming`: filter, sort ascending by `startDate`,
then limit. -/
def findUpcoming (events : List Event) (now : Nat) (lim : Nat) : List Event :=
  (((events.filter (upcomingFilter now)).insertionSort startDateLe).take lim)

/-- Static query `findUpcoming` called without a limit argument: the
default limit is 10. -/
def findUpcomingDefault (events : List Event) (now : Nat) : List Event :=
  findUpcoming events now 10

/-- Access predicate of the `join_event` handler: public visibility, or
the requester is the organizer, or the requester appears in the
attendees list. -/
def hasAccess (e : Event) (userId : String) : Bool :=
  e.visibility == "public" || e.organizer == userId
    || e.attendees.any (fun a => a.user == userId)

/-! JavaScript `Map` embedded as an association list with unique keys, and
`Set` embedded as a duplicate-free list. -/

/-- Lookup in a JS `Map` (`map.get(k)`, `undefined` becomes `none`). -/
def mapGet {α : Type} : List (String × α) → String → Option α
  | [], _ => none
  | p :: rest, k => if p.1 = k then some p.2 else mapGet rest k

/-- Update in a JS `Map` (`map.set(k, v)`): replace the entry when the key
is present, append otherwise. -/
def mapSet {α : Type} : List (String × α) → String → α → List (String × α)
  | [], k, v => [(k, v)]
  | p :: rest, k, v => if p.1 = k then (k, v) :: rest else p :: mapSet rest k v

/-- Deletion from a JS `Map` (`map.delete(k)`). -/
def mapDelete {α : Type} : List (String × α) → String → List (String × α)
  | [], _ => []
  | p :: rest, k => if p.1 = k then rest else p :: mapDelete rest k

/-- Insertion into a JS `Set` (`set.add(x)`). -/
def setAdd (s : List String) (x : String) : List String :=
  if x ∈ s then s else s ++ [x]

/-- An authenticated socket: the fields the handlers read
(`socket.id`, `socket.userId`, and the attached user document's
`fullName` and `avatar`). -/
structure Sock where
  id : String
  userId : String
  fullName : String
  avatar : String
  deriving DecidableEq, Repr

/-- Destination of an emission: the requesting socket itself
(`socket.emit`), every socket in a room (`io.to(room).emit`), every
socket in a room except the sender (`socket.to(room).emit`), or every
other connected socket (`socket.broadcast.emit`). -/
inductive Target where
  | self
  | room (name : String)
  | roomOthers (name : String)
  | allOthers
  deriving DecidableEq, Repr

/-- Payloads of the socket messages the handlers emit, restricted to the
fields the claims mention. -/
inductive MsgPayload where
  | errorP (message : String)
  | connectedP (userId name avatar : String) (ts : Nat)
  | userStatusP (userId userName status : String) (ts : Nat)
  | userJoinedEventP (userId userName userAvatar : String) (ts : Nat)
  | joinedEventP (eventId message : String)
  | userLeftEventP (userId userName : String) (ts : Nat)
  | eventUpdatedP (eventId updateType updateData updatedById updatedByName : String) (ts : Nat)
  | chatMessageP (msgId eventId userId userName userAvatar message messageType : String) (ts : Nat)
  | notificationP (fromId fromName fromAvatar : String) (ts : Nat)
  | statsP (eventId : String) (totalAttendees checkedInCount : Nat)
      (availableSpots : Spots) (onlineViewers : Nat) (ts : Nat)
  | attendeeCheckedInP (eventId attendeeId : String) (checkInTime : Nat) (totalCheckedIn : Nat)
  deriving DecidableEq, Repr

/-- One `emit` performed by a handler: target, event name, payload. -/
structure Emission where
  target : Target
  event : String
  payload : MsgPayload
  deriving DecidableEq, Repr

/-- Whether an emission list reaches any socket other than the sender. -/
def broadcastsToOthers (l : List Emission) : Bool :=
  l.any (fun e => e.target != Target.self)

/-- Handler for `join_event`: fetch the event, check access, then join the
room, track membership in `eventRooms`, notify the room and confirm.
Returns the emissions, the updated `eventRooms` map, and the list of
socket.io rooms the socket joined. -/
def joinEvent (db : EventDb) (rooms : List (String × List String)) (sock : Sock)
    (eventId : String) (now : Nat) :
    List Emission × List (String × List String) × List String :=
  match db eventId with
  | none => ([⟨.self, "error", .errorP "Event not found"⟩], rooms, [])
  | some event =>
    if hasAccess event sock.userId then
      let rooms' := mapSet rooms eventId (setAdd ((mapGet rooms eventId).getD []) sock.id)
      ([⟨.roomOthers ("event_" ++ eventId), "user_joined_event",
          .userJoinedEventP sock.userId sock.fullName sock.avatar now⟩,
        ⟨.self, "joined_event", .joinedEventP eventId "Successfully joined event room"⟩],
       rooms', ["event_" ++ eventId])
    else
      ([⟨.self, "error", .errorP "Access denied to this event"⟩], rooms, [])

/-- Handler for `event_update`: fetch the event; unless it exists and the
sender is its organizer, emit an error; otherwise broadcast
`event_updated` to the whole event room. -/
def eventUpdate (db : EventDb) (sock : Sock)
    (eventId updateType updateData : String) (now : Nat) : List Emission :=
  match db eventId with
  | none => [⟨.self, "error", .errorP "Unauthorized to update this event"⟩]
  | some event =>
    if event.organizer = sock.userId then
      [⟨.room ("event_" ++ eventId), "event_updated",
        .eventUpdatedP eventId updateType updateData sock.userId sock.fullName now⟩]
    else [⟨.self, "error", .errorP "Unauthorized to update this event"⟩]

/-- Handler for `send_event_message`: fetch the event; unless it exists
and `features.hasChat` is set, emit an error; otherwise broadcast the
chat message to the whole event room.  No check relates the sender to the
event. -/
def sendEventMessage (db : EventDb) (sock : Sock)
    (eventId message messageType : String) (now : Nat) : List Emission :=
  match db eventId with
  | none => [⟨.self, "error", .errorP "Chat not available for this event"⟩]
  | some event =>
    if event.features.hasChat then
      [⟨.room ("event_" ++ eventId), "new_event_message",
        .chatMessageP (toString now) eventId sock.userId sock.fullName sock.avatar
          message messageType now⟩]
    else [⟨.self, "error", .errorP "Chat not available for this event"⟩]

/-- Handler for `send_notification`: relay the notification to the target
user's personal room.  The handler performs no database access and no
check on the sender. -/
def sendNotification (sock : Sock) (targetUserId : String) (now : Nat) : List Emission :=
  [⟨.room ("user_" ++ targetUserId), "notification",
    .notificationP sock.userId sock.fullName sock.avatar now⟩]

/-- Handler for `request_event_stats`: fetch the event and reply to the
requesting socket with attendance statistics, including
`availableSpots = event.getAvailableSpots()` and the size of the event's
room in `eventRooms` (0 when absent). -/
def requestEventStats (db : EventDb) (rooms : List (String × List String))
    (sock : Sock) (eventId : String) (now : Nat) : List Emission :=
  match db eventId with
  | none => [⟨.self, "error", .errorP "Event not found"⟩]
  | some event =>
    [⟨.self, "event_stats",
      .statsP eventId event.attendees.length
        (event.attendees.filter (fun a => a.checkInTime.isSome)).length
        (getAvailableSpots event)
        (((mapGet rooms eventId).map List.length).getD 0) now⟩]

/-- Update of the first attendee with the given `_id`
(mongoose `attendees.id(attendeeId)` returns the first match, which is
then mutated in place). -/
def updateFirstAttendee : List Attendee → String → (Attendee → Attendee) → List Attendee
  | [], _, _ => []
  | a :: rest, aid, f =>
    if a._id = aid then f a :: rest else a :: updateFirstAttendee rest aid f

/-- Handler for `attendee_checkin`: unless the event exists and the sender
is its organizer, emit `error` with message `Unauthorized` and leave the
database unchanged.  Otherwise, when the named attendee exists, set its
`checkInTime` to now and its `status` to `attended`, save the event, and
broadcast `attendee_checked_in` to the event room; when the attendee does
not exist, do nothing. -/
def attendeeCheckin (db : EventDb) (sock : Sock)
    (eventId attendeeId : String) (now : Nat) : List Emission × EventDb :=
  match db eventId with
  | none => ([⟨.self, "error", .errorP "Unauthorized"⟩], db)
  | some event =>
    if event.organizer = sock.userId then
      match event.attendees.find? (fun a => a._id == attendeeId) with
      | none => ([], db)
      | some _ =>
        let updAtt := updateFirstAttendee event.attendees attendeeId
          (fun a => { a with checkInTime := some now, status := "attended" })
        let event' : Event := { event with attendees := updAtt }
        ([⟨.room ("event_" ++ eventId), "attendee_checked_in",
            .attendeeCheckedInP eventId attendeeId now
              (event'.attendees.filter (fun a => a.checkInTime.isSome)).length⟩],
         fun i => if i = eventId then some event' else db i)
    else ([⟨.self, "error", .errorP "Unauthorized"⟩], db)

/-- Value stored in `activeConnections` for a socket id. -/
structure ConnInfo where
  userId : String
  connectedAt : Nat
  deriving DecidableEq, Repr

/-- The in-memory bookkeeping of the socket module: `activeConnections`
(socket id to connection info), `userSockets` (user id to set of socket
ids), `eventRooms` (event id to set of socket ids). -/
structure SocketState where
  activeConnections : List (String × ConnInfo)
  userSockets : List (String × List String)
  eventRooms : List (String × List String)
  deriving DecidableEq, Repr

/-- Connection registration (the body of `io.on('connection')` up to the
handler setup): record the connection, add the socket to its user's set,
join the personal room `user_<userId>`, emit the welcome message and
broadcast online status.  Returns emissions, the rooms joined, and the
updated state. -/
def connectRegister (st : SocketState) (sock : Sock) (now : Nat) :
    List Emission × List String × SocketState :=
  let active' := mapSet st.activeConnections sock.id ⟨sock.userId, now⟩
  let userSockets' := mapSet st.userSockets sock.userId
    (setAdd ((mapGet st.userSockets sock.userId).getD []) sock.id)
  ([⟨.self, "connected", .connectedP sock.userId sock.fullName sock.avatar now⟩,
    ⟨.allOthers, "user_status_change", .userStatusP sock.userId sock.fullName "online" now⟩],
   ["user_" ++ sock.userId],
   ⟨active', userSockets', st.eventRooms⟩)

/-- Handler for `disconnect`: remove the socket from `activeConnections`;
remove it from its user's socket set, deleting the entry and broadcasting
offline status when the set becomes empty; and remove it from every event
room set (notifying each room it was in), without deleting emptied room
entries. -/
def disconnectHandler (st : SocketState) (sock : Sock) (now : Nat) :
    List Emission × SocketState :=
  let active' := mapDelete st.activeConnections sock.id
  let userStep : List (String × List String) × List Emission :=
    match mapGet st.userSockets sock.userId with
    | none => (st.userSockets, [])
    | some s =>
      let s' := s.erase sock.id
      if s'.length = 0 then
        (mapDelete st.userSockets sock.userId,
         [⟨.allOthers, "user_status_change",
            .userStatusP sock.userId sock.fullName "offline" now⟩])
      else (mapSet st.userSockets sock.userId s', [])
  let roomEmits : List Emission :=
    (st.eventRooms.filter (fun p => sock.id ∈ p.2)).map (fun p =>
      ⟨.roomOthers ("event_" ++ p.1), "user_left_event",
        .userLeftEventP sock.userId sock.fullName now⟩)
  let eventRooms' := st.eventRooms.map (fun p => (p.1, p.2.erase sock.id))
  (userStep.2 ++ roomEmits, ⟨active', userStep.1, eventRooms'⟩)

/-! Socket authentication middleware. -/

/-- User document, restricted to the fields the middleware reads. -/
structure UserDoc where
  _id : String
  status : String
  fullName : String
  avatar : String
  deriving DecidableEq, Repr

/-- Payload of a verified JWT (`decoded.userId`). -/
structure JwtPayload where
  userId : String
  deriving DecidableEq, Repr

/-- The socket handshake: optional `auth.token` and optional
`Authorization` header. -/
structure Handshake where
  authToken : Option String
  authorizationHeader : Option String
  deriving DecidableEq, Repr

/-- Replacement of the first occurrence of a pattern, as JavaScript
`String.prototype.replace` with a string pattern does. -/
def replaceFirst (s pat : String) : String :=
  match s.splitOn pat with
  | [] => s
  | [x] => x
  | x :: rest => x ++ String.intercalate pat rest

/-- JavaScript `a || b` on optional strings: the empty string is falsy. -/
def jsOr (a b : Option String) : Option String :=
  match a with
  | some t => if t = "" then b else some t
  | none => b

/-- Token extraction of the middleware:
`socket.handshake.auth.token || socket.handshake.headers.authorization?.replace('Bearer ', '')`. -/
def extractToken (h : Handshake) : Option String :=
  jsOr h.authToken (h.authorizationHeader.map (fun s => replaceFirst s "Bearer "))

/-- Socket authentication middleware (`io.use`): reject when no (truthy)
token is supplied, when JWT verification fails (the catch clause), or
when the referenced user is missing or not `active`; otherwise attach
the user and accept.  `verify` embeds `jwt.verify(token, secret)`, with
`none` for a thrown error; `userDb` embeds `User.findById`. -/
def authMiddleware (verify : String → String → Option JwtPayload) (secret : String)
    (userDb : String → Option UserDoc) (h : Handshake) : Except String UserDoc :=
  match extractToken h with
  | none => .error "Authentication token required"
  | some t =>
    if t = "" then .error "Authentication token required"
    else
      match verify t secret with
      | none => .error "Authentication failed"
      | some p =>
        match userDb p.userId with
        | none => .error "Invalid or inactive user"
        | some u =>
          if u.status = "active" then .ok u else .error "Invalid or inactive user"

/-- Complete connection attempt: the middleware followed by connection
registration of the accepted socket. -/
def handleConnection (verify : String → String → Option JwtPayload) (secret : String)
    (userDb : String → Option UserDoc) (st : SocketState) (h : Handshake)
    (sockId : String) (now : Nat) :
    Except String (List Emission × List String × SocketState) :=
  match authMiddleware verify secret userDb h with
  | .error e => .error e
  | .ok u => .ok (connectRegister st ⟨sockId, u._id, u.fullName, u.avatar⟩ now)

/-! Client `AuthService` (Angular).  Times are milliseconds since the
epoch as integers; RxJS timer subscriptions are embedded as timer ids,
with `activeTimers` the set of not-yet-unsubscribed timers,
`scheduledFires` the log of created timers with their absolute fire
instants, and `navigations` the log of router navigations. -/

/-- Client-side user value held by `currentUserSubject`. -/
structure ClientUser where
  id : String
  deriving DecidableEq, Repr

/-- Claims obtained by `jwtDecode` (only `exp`, in seconds, is read). -/
structure JwtClaims where
  exp : Int
  deriving DecidableEq, Repr

/-- Constant `REFRESH_THRESHOLD`: 5 minutes in milliseconds. -/
def REFRESH_THRESHOLD : Int := 5 * 60 * 1000

/-- State of the `AuthService`. -/
structure AuthState where
  storedToken : Option String
  currentUser : Option ClientUser
  isAuthenticated : Bool
  tokenRefreshTimer : Option Nat
  activeTimers : List Nat
  nextTimerId : Nat
  scheduledFires : List (Nat × Int)
  navigations : List String
  deriving DecidableEq, Repr

/-- Method `clearTokenRefreshTimer`: unsubscribe the tracked timer, if
any, and null the field. -/
def clearTokenRefreshTimer (st : AuthState) : AuthState :=
  match st.tokenRefreshTimer with
  | some tid =>
    { st with activeTimers := st.activeTimers.erase tid, tokenRefreshTimer := none }
  | none => st

/-- Method `clearAuthState`: remove the stored token, null the current
user, clear the authenticated flag. -/
def clearAuthState (st : AuthState) : AuthState :=
  { st with storedToken := none, currentUser := none, isAuthenticated := false }

/-- Method `handleLogout`: clear auth state, clear the refresh timer, and
navigate to `/login`. -/
def handleLogout (st : AuthState) : AuthState :=
  let st1 := clearTokenRefreshTimer (clearAuthState st)
  { st1 with navigations := st1.navigations ++ ["/login"] }

/-- An `HttpErrorResponse` as `handleError` inspects it:
`error.error instanceof ErrorEvent` distinguishes client-side errors,
`status` is the HTTP status, `serverMessage` is `error.error?.message`. -/
structure HttpErrorResponse where
  isClientErrorEvent : Bool
  clientMessage : String
  status : Nat
  serverMessage : Option String
  deriving DecidableEq, Repr

/-- Method `handleError`: client-side errors keep their message;
server-side status 401 triggers `handleLogout`; otherwise the server
message (or a generic one) is reported.  Returns the state after any
forced logout together with the error message thrown. -/
def handleError (st : AuthState) (err : HttpErrorResponse) : AuthState × String :=
  if err.isClientErrorEvent then (st, err.clientMessage)
  else if err.status = 401 then (handleLogout st, "Authentication failed")
  else
    match err.serverMessage with
    | some m => (st, m)
    | none => (st, "Server error: " ++ toString err.status)

/-- Method `scheduleTokenRefresh`: decode the token (`none` embeds a
decode error caught by the surrounding try, which only logs); compute
`refreshTime = exp·1000 − REFRESH_THRESHOLD` and `delay = refreshTime −
now`; when the delay is positive, clear any existing timer and create a
new one that fires after `delay`. -/
def scheduleTokenRefresh (st : AuthState) (decoded : Option JwtClaims) (now : Int) :
    AuthState :=
  match decoded with
  | none => st
  | some claims =>
    let expiryTime := claims.exp * 1000
    let refreshTime := expiryTime - REFRESH_THRESHOLD
    let delay := refreshTime - now
    if delay > 0 then
      let st1 := clearTokenRefreshTimer st
      { st1 with
        tokenRefreshTimer := some st1.nextTimerId,
        activeTimers := st1.activeTimers ++ [st1.nextTimerId],
        scheduledFires := st1.scheduledFires ++ [(st1.nextTimerId, now + delay)],
        nextTimerId := st1.nextTimerId + 1 }
    else st

/-! Concrete sample data used to evaluate the definitions on closed
inputs. -/

/-- Sample event: private, organized by alice, chat enabled, no
attendees. -/
def privChatEvent : Event :=
  { title := "Board meeting", startDate := 5000, status := "published",
    visibility := "private", organizer := "alice", attendees := [],
    pricing := ⟨"free", "USD", none⟩,
    registration := ⟨none, 0⟩, features := ⟨true⟩ }

/-- Sample database holding only `privChatEvent` under id `e1`. -/
def privChatDb : EventDb := fun i => if i = "e1" then some privChatEvent else none

/-- Sample socket of a user unrelated to `privChatEvent`. -/
def mallorySock : Sock := ⟨"s9", "mallory", "Mallory M", "m.png"⟩

/-- Sample socket of alice, the organizer of the sample events. -/
def aliceSock : Sock := ⟨"s1", "alice", "Alice A", "a.png"⟩

/-- Sample attendee record for user bob. -/
def bobAttendee : Attendee := ⟨"att1", "bob", "registered", none⟩

/-- Sample public event with one attendee and a finite, oversold
registration. -/
def pubEvent : Event :=
  { title := "Town hall", startDate := 9000, status := "published",
    visibility := "public", organizer := "alice", attendees := [bobAttendee],
    pricing := ⟨"paid", "USD", some [⟨"GA", 20, 10, 3⟩, ⟨"VIP", 50, 5, 7⟩]⟩,
    registration := ⟨some 1, 5⟩, features := ⟨false⟩ }

/-- Sample database holding `pubEvent` under id `e2`. -/
def pubDb : EventDb := fun i => if i = "e2" then some pubEvent else none

/-- Sample draft event, never returned by `findUpcoming`. -/
def draftEvent : Event :=
  { title := "Draft", startDate := 7000, status := "draft",
    visibility := "public", organizer := "alice", attendees := [],
    pricing := ⟨"free", "USD", none⟩,
    registration := ⟨none, 0⟩, features := ⟨false⟩ }

/-- Sample list of events for the `findUpcoming` witness. -/
def sampleEvents : List Event := [pubEvent, draftEvent, privChatEvent]

/-- Sample socket bookkeeping state: two sockets of user u1, one of u2,
one event room containing sockets of both users. -/
def sampleSocketState : SocketState :=
  { activeConnections := [("s1", ⟨"u1", 10⟩), ("s2", ⟨"u1", 20⟩), ("s3", ⟨"u2", 30⟩)],
    userSockets := [("u1", ["s1", "s2"]), ("u2", ["s3"])],
    eventRooms := [("e1", ["s1", "s3"]), ("e2", ["s2"])] }

/-- Sample socket of user u2 whose only socket is s3. -/
def u2Sock : Sock := ⟨"s3", "u2", "User Two", "u2.png"⟩

/-- Sample auth-service state with one live refresh timer. -/
def sampleAuthState : AuthState :=
  { storedToken := some "tok", currentUser := some ⟨"u1"⟩, isAuthenticated := true,
    tokenRefreshTimer := some 0, activeTimers := [0], nextTimerId := 1,
    scheduledFires := [(0, 700000)], navigations := [] }

/-- Sample server-side 401 error response. -/
def sample401 : HttpErrorResponse :=
  { isClientErrorEvent := false, clientMessage := "", status := 401,
    serverMessage := some "Token expired" }

/-- Sample JWT verifier accepting exactly the token `good` under the
secret `s3cret`. -/
def sampleVerify : String → String → Option JwtPayload :=
  fun t secret => if t = "good" ∧ secret = "s3cret" then some ⟨"u1"⟩ else none

/-- Sample user database with one active and one suspended user. -/
def sampleUserDb : String → Option UserDoc :=
  fun i =>
    if i = "u1" then some ⟨"u1", "active", "User One", "u1.png"⟩
    else if i = "u9" then some ⟨"u9", "suspended", "User Nine", "u9.png"⟩
    else none

/-! Helper lemmas about the embedded `Map` and `Set` operations. -/

theorem mapGet_eq_none_iff {α : Type} (m : List (String × α)) (k : String) :
    mapGet m k = none ↔ ∀ p ∈ m, p.1 ≠ k := by
  induction m with
  | nil => simp [mapGet]
  | cons q rest ih =>
    by_cases hq : q.1 = k
    · simp [mapGet, hq]
    · simp [mapGet, hq, ih]

theorem mapGet_mem {α : Type} {m : List (String × α)} {k : String} {v : α}
    (h : mapGet m k = some v) : (k, v) ∈ m := by
  induction m with
  | nil => simp [mapGet] at h
  | cons q rest ih =>
    by_cases hq : q.1 = k
    · simp [mapGet, hq] at h
      have hqv : q = (k, v) := by
        obtain ⟨q1, q2⟩ := q
        simp_all
      rw [hqv]
      exact List.mem_cons_self _ _
    · simp [mapGet, hq] at h
      exact List.mem_cons_of_mem _ (ih h)

theorem mapGet_mapSet_self {α : Type} (m : List (String × α)) (k : String) (v : α) :
    mapGet (mapSet m k v) k = some v := by
  induction m with
  | nil => simp [mapGet, mapSet]
  | cons q rest ih =>
    by_cases hq : q.1 = k
    · simp [mapSet, hq, mapGet]
    · simp [mapSet, hq, mapGet, ih]

theorem mem_mapDelete {α : Type} {m : List (String × α)} {k : String} {p : String × α}
    (h : p ∈ mapDelete m k) : p ∈ m := by
  induction m with
  | nil => simp [mapDelete] at h
  | cons q rest ih =>
    by_cases hq : q.1 = k
    · simp [mapDelete, hq] at h
      exact List.mem_cons_of_mem _ h
    · simp [mapDelete, hq] at h
      rcases h with h | h
      · exact h ▸ List.mem_cons_self _ _
      · exact List.mem_cons_of_mem _ (ih h)

theorem mem_mapDelete_key_ne {α : Type} {m : List (String × α)} {k : String}
    (hnd : (m.map Prod.fst).Nodup) {p : String × α}
    (h : p ∈ mapDelete m k) : p.1 ≠ k := by
  induction m with
  | nil => simp [mapDelete] at h
  | cons q rest ih =>
    simp only [List.map_cons, List.nodup_cons] at hnd
    by_cases hq : q.1 = k
    · simp [mapDelete, hq] at h
      intro hpk
      apply hnd.1
      rw [hq, ← hpk]
      exact List.mem_map_of_mem Prod.fst h
    · simp [mapDelete, hq] at h
      rcases h with h | h
      · exact h ▸ hq
      · exact ih hnd.2 h

theorem mapGet_mapDelete_self {α : Type} {m : List (String × α)} {k : String}
    (hnd : (m.map Prod.fst).Nodup) : mapGet (mapDelete m k) k = none := by
  rw [mapGet_eq_none_iff]
  intro p hp
  exact mem_mapDelete_key_ne hnd hp

theorem mem_mapSet {α : Type} {m : List (String × α)} {k : String} {v : α}
    {p : String × α} (hnd : (m.map Prod.fst).Nodup) (h : p ∈ mapSet m k v) :
    p = (k, v) ∨ (p ∈ m ∧ p.1 ≠ k) := by
  induction m with
  | nil => simp [mapSet] at h; left; exact h
  | cons q rest ih =>
    simp only [List.map_cons, List.nodup_cons] at hnd
    by_cases hq : q.1 = k
    · simp [mapSet, hq] at h
      rcases h with h | h
      · left; exact h
      · right
        refine ⟨List.mem_cons_of_mem _ h, ?_⟩
        intro hpk
        apply hnd.1
        rw [hq, ← hpk]
        exact List.mem_map_of_mem Prod.fst h
    · simp [mapSet, hq] at h
      rcases h with h | h
      · right
        exact ⟨h ▸ List.mem_cons_self _ _, h ▸ hq⟩
      · rcases ih hnd.2 h with h' | h'
        · left; exact h'
        · right; exact ⟨List.mem_cons_of_mem _ h'.1, h'.2⟩

theorem erase_eq_nil_iff (s : List String) (x : String) :
    s.erase x = [] ↔ s = [] ∨ s = [x] := by
  induction s with
  | nil => simp
  | cons a t ih =>
    by_cases ha : a = x
    · subst ha
      simp [List.erase_cons_head]
    · have ht : (a :: t).erase x = a :: t.erase x := List.erase_cons_tail (by simp [ha])
      rw [ht]
      simp [ha]

theorem not_mem_erase_self {s : List String} {x : String} (hnd : s.Nodup) :
    x ∉ s.erase x := by
  intro hm
  have := (List.Nodup.mem_erase_iff hnd).mp hm
  exact this.1 rfl

theorem foldl_add_eq_add_sum (f : Ticket → Int) (ts : List Ticket) (a : Int) :
    ts.foldl (fun total t => total + f t) a = a + (ts.map f).sum := by
  induction ts generalizing a with
  | nil => simp
  | cons t rest ih =>
    simp only [List.foldl_cons, List.map_cons, List.sum_cons, ih]
    ring

/-- C8: for every event document, the virtual getter `availableTickets`
equals the sum over all tickets in `pricing.tickets` of
`quantity - sold`, and equals 0 when the tickets array is absent. -/
theorem availableTickets_eq_sum (e : Event) :
    (e.pricing.tickets = none → availableTickets e = 0) ∧
    (∀ ts, e.pricing.tickets = some ts →
      availableTickets e = (ts.map (fun t => t.quantity - t.sold)).sum) := by
  constructor
  · intro h
    simp [availableTickets, h]
  · intro ts h
    simp only [availableTickets, h]
    simpa using foldl_add_eq_add_sum (fun t => t.quantity - t.sold) ts 0

/-- Witness for C8: `pubEvent` carries two ticket classes; its
`availableTickets` is the sum of their remaining quantities. -/
theorem availableTickets_eq_sum_witness :
    pubEvent.pricing.tickets = some [⟨"GA", 20, 10, 3⟩, ⟨"VIP", 50, 5, 7⟩] ∧
    availableTickets pubEvent =
      (([⟨"GA", 20, 10, 3⟩, ⟨"VIP", 50, 5, 7⟩] : List Ticket).map
        (fun t => t.quantity - t.sold)).sum :=
  ⟨rfl, (availableTickets_eq_sum pubEvent).2 _ rfl⟩

/-- C9: `getAvailableSpots` returns Infinity exactly when
`registration.maxAttendees` is falsy (absent or 0); otherwise it returns
`maxAttendees - currentAttendees`, which can be negative; and the
`request_event_stats` handler reports this value as `availableSpots`. -/
theorem getAvailableSpots_spec :
    (∀ e : Event,
      (e.registration.maxAttendees = none ∨ e.registration.maxAttendees = some 0) →
        getAvailableSpots e = Spots.infinite) ∧
    (∀ (e : Event) (m : Nat), e.registration.maxAttendees = some m → m ≠ 0 →
        getAvailableSpots e =
          Spots.finite ((m : Int) - (e.registration.currentAttendees : Int))) ∧
    (∃ (e : Event) (n : Int), getAvailableSpots e = Spots.finite n ∧ n < 0) ∧
    (∀ (db : EventDb) (rooms : List (String × List String)) (sock : Sock)
        (eid : String) (ev : Event) (now : Nat), db eid = some ev →
        requestEventStats db rooms sock eid now =
          [⟨.self, "event_stats",
             .statsP eid ev.attendees.length
               (ev.attendees.filter (fun a => a.checkInTime.isSome)).length
               (getAvailableSpots ev)
               (((mapGet rooms eid).map List.length).getD 0) now⟩]) := by
  refine ⟨?_, ?_, ?_, ?_⟩
  · intro e h
    rcases h with h | h <;> simp [getAvailableSpots, h]
  · intro e m h hm
    cases m with
    | zero => exact absurd rfl hm
    | succ k => simp [getAvailableSpots, h]
  · exact ⟨pubEvent, -4, by decide, by decide⟩
  · intro db rooms sock eid ev now h
    simp [requestEventStats, h]

/-- Witness for C9: `pubEvent` has `maxAttendees = 1` and
`currentAttendees = 5`, so its available spots are the negative number
`-4`, and the stats handler reports exactly that value. -/
theorem getAvailableSpots_spec_witness :
    pubEvent.registration.maxAttendees = some 1 ∧
    getAvailableSpots pubEvent =
      Spots.finite ((1 : Int) - ((5 : Nat) : Int)) ∧
    pubDb "e2" = some pubEvent ∧
    requestEventStats pubDb [] aliceSock "e2" 7 =
      [⟨.self, "event_stats",
         .statsP "e2" pubEvent.attendees.length
           (pubEvent.attendees.filter (fun a => a.checkInTime.isSome)).length
           (getAvailableSpots pubEvent)
           (((mapGet ([] : List (String × List String)) "e2").map List.length).getD 0) 7⟩] :=
  ⟨rfl, (getAvailableSpots_spec).2.1 pubEvent 1 rfl (by decide), rfl,
    (getAvailableSpots_spec).2.2.2 pubDb [] aliceSock "e2" pubEvent 7 rfl⟩

/-- C3: every server-side HTTP 401 received by `handleError` forces a
logout: the stored token is removed, the current user is nulled, the
authenticated flag is cleared, and the router navigates to `/login`. -/
theorem handleError_401_forces_logout (st : AuthState) (err : HttpErrorResponse)
    (hs : err.isClientErrorEvent = false) (h4 : err.status = 401) :
    (handleError st err).1.storedToken = none ∧
    (handleError st err).1.currentUser = none ∧
    (handleError st err).1.isAuthenticated = false ∧
    (handleError st err).1.navigations = st.navigations ++ ["/login"] := by
  cases htr : st.tokenRefreshTimer <;>
    simp [handleError, hs, h4, handleLogout, clearAuthState, clearTokenRefreshTimer, htr]

/-- Witness for C3: a concrete 401 response against a live auth state. -/
theorem handleError_401_forces_logout_witness :
    sample401.isClientErrorEvent = false ∧ sample401.status = 401 ∧
    ((handleError sampleAuthState sample401).1.storedToken = none ∧
     (handleError sampleAuthState sample401).1.currentUser = none ∧
     (handleError sampleAuthState sample401).1.isAuthenticated = false ∧
     (handleError sampleAuthState sample401).1.navigations =
       sampleAuthState.navigations ++ ["/login"]) :=
  ⟨rfl, rfl, handleError_401_forces_logout sampleAuthState sample401 rfl rfl⟩

/-- C4: starting from a state with at most one active refresh timer (the
tracked one), `scheduleTokenRefresh` keeps at most one timer active; when
the refresh instant `exp·1000 − REFRESH_THRESHOLD` lies in the future it
cancels the existing timer and creates a single new one firing exactly at
that instant, and otherwise it changes nothing. -/
theorem scheduleTokenRefresh_single_timer (st : AuthState) (claims : JwtClaims) (now : Int)
    (hinv : st.activeTimers = [] ∨
      ∃ tid, st.tokenRefreshTimer = some tid ∧ st.activeTimers = [tid]) :
    (claims.exp * 1000 - REFRESH_THRESHOLD > now →
       (scheduleTokenRefresh st (some claims) now).tokenRefreshTimer = some st.nextTimerId ∧
       (scheduleTokenRefresh st (some claims) now).activeTimers = [st.nextTimerId] ∧
       (scheduleTokenRefresh st (some claims) now).scheduledFires =
         st.scheduledFires ++ [(st.nextTimerId, claims.exp * 1000 - REFRESH_THRESHOLD)]) ∧
    (¬ claims.exp * 1000 - REFRESH_THRESHOLD > now →
       scheduleTokenRefresh st (some claims) now = st) ∧
    ((scheduleTokenRefresh st (some claims) now).activeTimers = [] ∨
      ∃ tid, (scheduleTokenRefresh st (some claims) now).tokenRefreshTimer = some tid ∧
        (scheduleTokenRefresh st (some claims) now).activeTimers = [tid]) := by
  have hnext : (clearTokenRefreshTimer st).nextTimerId = st.nextTimerId := by
    cases htr : st.tokenRefreshTimer <;> simp [clearTokenRefreshTimer, htr]
  have hfires : (clearTokenRefreshTimer st).scheduledFires = st.scheduledFires := by
    cases htr : st.tokenRefreshTimer <;> simp [clearTokenRefreshTimer, htr]
  have hclear : (clearTokenRefreshTimer st).activeTimers = [] := by
    rcases hinv with h | ⟨tid, htid, hact⟩
    · cases htr : st.tokenRefreshTimer <;> simp [clearTokenRefreshTimer, htr, h]
    · simp [clearTokenRefreshTimer, htid, hact]
  by_cases hd : claims.exp * 1000 - REFRESH_THRESHOLD - now > 0
  · have habs : now + (claims.exp * 1000 - REFRESH_THRESHOLD - now) =
        claims.exp * 1000 - REFRESH_THRESHOLD := by ring
    have hred : scheduleTokenRefresh st (some claims) now =
        { clearTokenRefreshTimer st with
          tokenRefreshTimer := some (clearTokenRefreshTimer st).nextTimerId,
          activeTimers := (clearTokenRefreshTimer st).activeTimers ++
            [(clearTokenRefreshTimer st).nextTimerId],
          scheduledFires := (clearTokenRefreshTimer st).scheduledFires ++
            [((clearTokenRefreshTimer st).nextTimerId,
              now + (claims.exp * 1000 - REFRESH_THRESHOLD - now))],
          nextTimerId := (clearTokenRefreshTimer st).nextTimerId + 1 } := by
      simp only [scheduleTokenRefresh]
      rw [if_pos hd]
    refine ⟨fun _ => ?_, fun hn => absurd (by omega) hn, ?_⟩
    · rw [hred]
      simp [hnext, hfires, hclear, habs]
    · right
      refine ⟨st.nextTimerId, ?_, ?_⟩ <;> rw [hred] <;> simp [hnext, hclear]
  · have hred : scheduleTokenRefresh st (some claims) now = st := by
      simp only [scheduleTokenRefresh]
      rw [if_neg hd]
    refine ⟨fun hf => absurd (by omega) hd, fun _ => hred, ?_⟩
    rw [hred]
    exact hinv

/-- Witness for C4: the sample state has one live timer (id 0); a token
expiring at second 2000 observed at time 500000 reschedules: only the new
timer (id 1) is active afterwards and it fires at 1700000, five minutes
before the 2000000 expiry. -/
theorem scheduleTokenRefresh_single_timer_witness :
    (sampleAuthState.activeTimers = [] ∨
      ∃ tid, sampleAuthState.tokenRefreshTimer = some tid ∧
        sampleAuthState.activeTimers = [tid]) ∧
    ((2000 : Int) * 1000 - REFRESH_THRESHOLD > 500000 →
       (scheduleTokenRefresh sampleAuthState (some ⟨2000⟩) 500000).tokenRefreshTimer =
         some sampleAuthState.nextTimerId ∧
       (scheduleTokenRefresh sampleAuthState (some ⟨2000⟩) 500000).activeTimers =
         [sampleAuthState.nextTimerId] ∧
       (scheduleTokenRefresh sampleAuthState (some ⟨2000⟩) 500000).scheduledFires =
         sampleAuthState.scheduledFires ++
           [(sampleAuthState.nextTimerId, (2000 : Int) * 1000 - REFRESH_THRESHOLD)]) :=
  ⟨Or.inr ⟨0, rfl, rfl⟩,
    (scheduleTokenRefresh_single_timer sampleAuthState ⟨2000⟩ 500000
      (Or.inr ⟨0, rfl, rfl⟩)).1⟩

/-- C7: `findUpcoming` returns only events whose `startDate` is at or
after the current time, with status `published` and visibility `public`,
sorted in ascending order of `startDate`, and at most `lim` of them; the
limit defaults to 10 when omitted. -/
theorem findUpcoming_spec (events : List Event) (now lim : Nat) :
    (∀ e ∈ findUpcoming events now lim,
       now ≤ e.startDate ∧ e.status = "published" ∧ e.visibility = "public") ∧
    (findUpcoming events now lim).Pairwise (fun a b => a.startDate ≤ b.startDate) ∧
    (findUpcoming events now lim).length ≤ lim ∧
    findUpcomingDefault events now = findUpcoming events now 10 := by
  refine ⟨?_, ?_, ?_, rfl⟩
  · intro e he
    simp only [findUpcoming] at he
    have h1 := List.mem_of_mem_take he
    have h2 := (List.mem_insertionSort startDateLe).mp h1
    have h4 := (List.mem_filter.mp h2).2
    simp only [upcomingFilter, Bool.and_eq_true, decide_eq_true_eq, beq_iff_eq] at h4
    exact ⟨h4.1.1, h4.1.2, h4.2⟩
  · haveI : IsTotal Event startDateLe := ⟨fun a b => Nat.le_total a.startDate b.startDate⟩
    haveI : IsTrans Event startDateLe := ⟨fun a b c => Nat.le_trans⟩
    have hs := List.sorted_insertionSort startDateLe (events.filter (upcomingFilter now))
    have hp := List.Pairwise.sublist (List.take_sublist lim _) hs
    simp only [findUpcoming]
    exact hp.imp (fun h => h)
  · simp only [findUpcoming, List.length_take]
    exact inf_le_left

/-- Witness for C7: on the sample event list only the two published
public events qualify; `pubEvent` is a member of the result and
satisfies the filter. -/
theorem findUpcoming_spec_witness :
    pubEvent ∈ findUpcoming sampleEvents 4000 10 ∧
    (4000 ≤ pubEvent.startDate ∧ pubEvent.status = "published" ∧
      pubEvent.visibility = "public") :=
  ⟨by decide, (findUpcoming_spec sampleEvents 4000 10).1 pubEvent (by decide)⟩

theorem hasAccess_iff (e : Event) (uid : String) :
    hasAccess e uid = true ↔
      (e.visibility = "public" ∨ e.organizer = uid ∨
        ∃ a ∈ e.attendees, a.user = uid) := by
  simp [hasAccess, List.any_eq_true, or_assoc]

theorem mem_setAdd_self (s : List String) (x : String) : x ∈ setAdd s x := by
  by_cases h : x ∈ s <;> simp [setAdd, h]

theorem updateFirstAttendee_sets (l : List Attendee) (aid : String) (now : Nat)
    (h : ∃ a ∈ l, a._id = aid) :
    ∃ a' ∈ updateFirstAttendee l aid
        (fun a => { a with checkInTime := some now, status := "attended" }),
      a'._id = aid ∧ a'.checkInTime = some now ∧ a'.status = "attended" := by
  induction l with
  | nil => simp at h
  | cons b rest ih =>
    by_cases hb : b._id = aid
    · refine ⟨{ b with checkInTime := some now, status := "attended" }, ?_, hb, rfl, rfl⟩
      simp only [updateFirstAttendee, if_pos hb]
      exact List.mem_cons_self _ _
    · rcases h with ⟨a, ha, haid⟩
      rcases List.mem_cons.mp ha with rfl | ha'
      · exact absurd haid hb
      · rcases ih ⟨a, ha', haid⟩ with ⟨a', hm, hp⟩
        refine ⟨a', ?_, hp⟩
        simp only [updateFirstAttendee, if_neg hb]
        exact List.mem_cons_of_mem _ hm

/-- Counterexample to C1: `send_event_message` broadcasts mallory's
message to the room of a private event mallory has no access to (the
repo's own access predicate rejects mallory), and `send_notification`
broadcasts while performing no database fetch whatsoever — neither
handler checks the sender's authorization against a freshly fetched
document before broadcasting. -/
theorem sendMessage_broadcast_unauthorized :
    broadcastsToOthers (sendEventMessage privChatDb mallorySock "e1" "hi" "text" 1000) = true ∧
    hasAccess privChatEvent mallorySock.userId = false ∧
    privChatEvent.organizer ≠ mallorySock.userId ∧
    broadcastsToOthers (sendNotification mallorySock "bob" 1000) = true := by
  refine ⟨?_, ?_, ?_, ?_⟩ <;> decide

/-- C1 amended: `event_update` and `attendee_checkin` broadcast only when
the freshly fetched event exists and the sender is its organizer (and
`attendee_checkin` mutates the database only in that case), but
`send_event_message` broadcasts whenever the fetched event has chat
enabled, regardless of the sender, and `send_notification` always
broadcasts, with no database fetch or authorization check. -/
theorem handlers_authorization_amended (db : EventDb) (sock : Sock)
    (eid updateType updateData msg mt aid : String) (now : Nat) :
    (broadcastsToOthers (eventUpdate db sock eid updateType updateData now) = true ↔
       ∃ ev, db eid = some ev ∧ ev.organizer = sock.userId) ∧
    (broadcastsToOthers (sendEventMessage db sock eid msg mt now) = true ↔
       ∃ ev, db eid = some ev ∧ ev.features.hasChat = true) ∧
    (broadcastsToOthers (attendeeCheckin db sock eid aid now).1 = true ↔
       ∃ ev, db eid = some ev ∧ ev.organizer = sock.userId ∧
         ∃ a ∈ ev.attendees, a._id = aid) ∧
    ((attendeeCheckin db sock eid aid now).2 = db ∨
       ∃ ev, db eid = some ev ∧ ev.organizer = sock.userId) ∧
    broadcastsToOthers (sendNotification sock aid now) = true := by
  refine ⟨?_, ?_, ?_, ?_, by simp [sendNotification, broadcastsToOthers]⟩
  · cases h : db eid with
    | none => simp [eventUpdate, h, broadcastsToOthers]
    | some ev =>
      by_cases ho : ev.organizer = sock.userId <;>
        simp [eventUpdate, h, ho, broadcastsToOthers]
  · cases h : db eid with
    | none => simp [sendEventMessage, h, broadcastsToOthers]
    | some ev =>
      by_cases hc : ev.features.hasChat <;>
        simp [sendEventMessage, h, hc, broadcastsToOthers]
  · cases h : db eid with
    | none => simp [attendeeCheckin, h, broadcastsToOthers]
    | some ev =>
      by_cases ho : ev.organizer = sock.userId
      · cases hf : ev.attendees.find? (fun a => a._id == aid) with
        | none =>
          simp only [attendeeCheckin, h, if_pos ho, hf]
          simp only [broadcastsToOthers, List.any_nil]
          constructor
          · intro hfalse; cases hfalse
          · rintro ⟨ev', hev', -, a, ha, haid⟩
            injection hev' with he
            subst he
            have := List.find?_eq_none.mp hf a ha
            simp [haid] at this
        | some a0 =>
          simp only [attendeeCheckin, h, if_pos ho, hf]
          constructor
          · intro _
            refine ⟨ev, rfl, ho, a0, List.mem_of_find?_eq_some hf, ?_⟩
            have := List.find?_some hf
            simpa using this
          · intro _
            simp [broadcastsToOthers]
      · simp only [attendeeCheckin, h, if_neg ho]
        simp [broadcastsToOthers, ho]
  · cases h : db eid with
    | none => left; simp [attendeeCheckin, h]
    | some ev =>
      by_cases ho : ev.organizer = sock.userId
      · right; exact ⟨ev, rfl, ho⟩
      · left; simp [attendeeCheckin, h, if_neg ho]

/-- C5: a `join_event` request adds the socket to the event's room and
emits the `joined_event` confirmation exactly when the event exists and
the requester has access (public visibility, organizer, or listed
attendee); otherwise an `error` is emitted and the room membership map is
unchanged. -/
theorem join_event_spec (db : EventDb) (rooms : List (String × List String))
    (sock : Sock) (eid : String) (now : Nat) :
    ((∃ ev, db eid = some ev ∧
        (ev.visibility = "public" ∨ ev.organizer = sock.userId ∨
          ∃ a ∈ ev.attendees, a.user = sock.userId)) ↔
      ((joinEvent db rooms sock eid now).2.2 = ["event_" ++ eid] ∧
       (⟨.self, "joined_event", .joinedEventP eid "Successfully joined event room"⟩ : Emission)
         ∈ (joinEvent db rooms sock eid now).1 ∧
       sock.id ∈ (mapGet (joinEvent db rooms sock eid now).2.1 eid).getD [])) ∧
    ((¬ ∃ ev, db eid = some ev ∧
        (ev.visibility = "public" ∨ ev.organizer = sock.userId ∨
          ∃ a ∈ ev.attendees, a.user = sock.userId)) →
       (joinEvent db rooms sock eid now).2.1 = rooms ∧
       ∃ m, (joinEvent db rooms sock eid now).1 =
         [⟨.self, "error", .errorP m⟩]) := by
  cases h : db eid with
  | none =>
    constructor
    · constructor
      · rintro ⟨ev, hev, -⟩
        cases hev
      · intro hr
        rcases hr with ⟨hj, -, -⟩
        simp [joinEvent, h] at hj
    · intro _
      exact ⟨by simp [joinEvent, h], "Event not found", by simp [joinEvent, h]⟩
  | some ev =>
    by_cases ha : hasAccess ev sock.userId = true
    · constructor
      · constructor
        · intro _
          refine ⟨by simp [joinEvent, h, ha], by simp [joinEvent, h, ha], ?_⟩
          simp only [joinEvent, h, ha, if_true]
          rw [mapGet_mapSet_self]
          exact mem_setAdd_self _ _
        · intro _
          exact ⟨ev, rfl, (hasAccess_iff ev sock.userId).mp ha⟩
      · intro hno
        exact absurd ⟨ev, rfl, (hasAccess_iff ev sock.userId).mp ha⟩ hno
    · have ha' : hasAccess ev sock.userId = false := by
        simpa using ha
      constructor
      · constructor
        · rintro ⟨ev', hev', hcond⟩
          injection hev' with he
          subst he
          exact absurd ((hasAccess_iff ev sock.userId).mpr hcond) (by simp [ha'])
        · intro hr
          rcases hr with ⟨hj, -, -⟩
          simp [joinEvent, h, ha'] at hj
      · intro _
        refine ⟨by simp [joinEvent, h, ha'], "Access denied to this event", ?_⟩
        simp [joinEvent, h, ha']

/-- Witness for C5: mallory can join the public event `pubEvent`; the
socket is tracked in the room and the confirmation is emitted. -/
theorem join_event_spec_witness :
    (∃ ev, pubDb "e2" = some ev ∧
       (ev.visibility = "public" ∨ ev.organizer = mallorySock.userId ∨
         ∃ a ∈ ev.attendees, a.user = mallorySock.userId)) ∧
    ((joinEvent pubDb [] mallorySock "e2" 42).2.2 = ["event_" ++ "e2"] ∧
     (⟨.self, "joined_event", .joinedEventP "e2" "Successfully joined event room"⟩ : Emission)
       ∈ (joinEvent pubDb [] mallorySock "e2" 42).1 ∧
     mallorySock.id ∈ (mapGet (joinEvent pubDb [] mallorySock "e2" 42).2.1 "e2").getD []) :=
  ⟨⟨pubEvent, rfl, Or.inl rfl⟩,
    (join_event_spec pubDb [] mallorySock "e2" 42).1.mp ⟨pubEvent, rfl, Or.inl rfl⟩⟩

/-- C6: when the requester of `attendee_checkin` is not the organizer (or
the event does not exist), an `error` with message `Unauthorized` is
emitted and the database is unchanged; when the requester is the
organizer and the named attendee exists, its `checkInTime` becomes the
current time, its `status` becomes `attended`, the event is saved, and
`attendee_checked_in` is broadcast to the event room. -/
theorem attendee_checkin_spec (db : EventDb) (sock : Sock) (eid aid : String) (now : Nat) :
    (db eid = none →
       attendeeCheckin db sock eid aid now =
         ([⟨.self, "error", .errorP "Unauthorized"⟩], db)) ∧
    (∀ ev, db eid = some ev → ev.organizer ≠ sock.userId →
       attendeeCheckin db sock eid aid now =
         ([⟨.self, "error", .errorP "Unauthorized"⟩], db)) ∧
    (∀ ev, db eid = some ev → ev.organizer = sock.userId →
       (∃ a ∈ ev.attendees, a._id = aid) →
       ∃ ev', (attendeeCheckin db sock eid aid now).2 eid = some ev' ∧
         (∃ a' ∈ ev'.attendees, a'._id = aid ∧ a'.checkInTime = some now ∧
            a'.status = "attended") ∧
         (attendeeCheckin db sock eid aid now).1 =
           [⟨.room ("event_" ++ eid), "attendee_checked_in",
              .attendeeCheckedInP eid aid now
                (ev'.attendees.filter (fun a => a.checkInTime.isSome)).length⟩]) := by
  refine ⟨?_, ?_, ?_⟩
  · intro h
    simp [attendeeCheckin, h]
  · intro ev h ho
    simp [attendeeCheckin, h, ho]
  · intro ev h ho hex
    have hfs : (ev.attendees.find? (fun a => a._id == aid)).isSome := by
      rw [List.find?_isSome]
      rcases hex with ⟨a, ha, haid⟩
      exact ⟨a, ha, by simp [haid]⟩
    rcases Option.isSome_iff_exists.mp hfs with ⟨a0, hf⟩
    refine ⟨{ ev with attendees := updateFirstAttendee ev.attendees aid (fun a => { a with checkInTime := some now, status := "attended" }) }, ?_, ?_, ?_⟩
    · simp [attendeeCheckin, h, ho, hf]
    · exact updateFirstAttendee_sets ev.attendees aid now hex
    · simp [attendeeCheckin, h, ho, hf]

/-- Witness for C6: alice (organizer) checks bob in at time 99 on
`pubEvent`; his record gets `checkInTime = 99` and status `attended`, and
the broadcast goes to the event room. -/
theorem attendee_checkin_spec_witness :
    pubDb "e2" = some pubEvent ∧ pubEvent.organizer = aliceSock.userId ∧
    (∃ a ∈ pubEvent.attendees, a._id = "att1") ∧
    ∃ ev', (attendeeCheckin pubDb aliceSock "e2" "att1" 99).2 "e2" = some ev' ∧
      (∃ a' ∈ ev'.attendees, a'._id = "att1" ∧ a'.checkInTime = some 99 ∧
         a'.status = "attended") ∧
      (attendeeCheckin pubDb aliceSock "e2" "att1" 99).1 =
        [⟨.room ("event_" ++ "e2"), "attendee_checked_in",
           .attendeeCheckedInP "e2" "att1" 99
             (ev'.attendees.filter (fun a => a.checkInTime.isSome)).length⟩] :=
  ⟨rfl, rfl, ⟨bobAttendee, by decide, rfl⟩,
    (attendee_checkin_spec pubDb aliceSock "e2" "att1" 99).2.2 pubEvent rfl rfl
      ⟨bobAttendee, by decide, rfl⟩⟩

/-- C2: a socket connection attempt is accepted exactly when a (truthy)
token is extracted from the handshake auth field or the Authorization
header, the token JWT-verifies, and the referenced user exists with
status `active`; otherwise it is rejected with one of the middleware's
authentication errors; and an accepted socket joins exactly its personal
room `user_<userId>`. -/
theorem socket_auth_spec (verify : String → String → Option JwtPayload) (secret : String)
    (userDb : String → Option UserDoc) (st : SocketState) (h : Handshake)
    (sid : String) (now : Nat) :
    ((∃ r, handleConnection verify secret userDb st h sid now = .ok r) ↔
       ∃ t, extractToken h = some t ∧ t ≠ "" ∧
         ∃ p, verify t secret = some p ∧
           ∃ u, userDb p.userId = some u ∧ u.status = "active") ∧
    (∀ emits joins st', handleConnection verify secret userDb st h sid now =
        .ok (emits, joins, st') →
       ∃ u t p, extractToken h = some t ∧ verify t secret = some p ∧
         userDb p.userId = some u ∧ u.status = "active" ∧
         joins = ["user_" ++ u._id]) ∧
    (∀ e, handleConnection verify secret userDb st h sid now = .error e →
       e = "Authentication token required" ∨ e = "Authentication failed" ∨
         e = "Invalid or inactive user") := by
  cases ht : extractToken h with
  | none =>
    have hm : handleConnection verify secret userDb st h sid now =
        .error "Authentication token required" := by
      simp [handleConnection, authMiddleware, ht]
    refine ⟨⟨?_, ?_⟩, ?_, ?_⟩
    · rintro ⟨r, hr⟩
      rw [hm] at hr
      cases hr
    · rintro ⟨t, htk, -⟩
      cases htk
    · intro emits joins st' hr
      rw [hm] at hr
      cases hr
    · intro e he
      rw [hm] at he
      injection he with he'
      exact Or.inl he'.symm
  | some t =>
    by_cases h0 : t = ""
    · have hm : handleConnection verify secret userDb st h sid now =
          .error "Authentication token required" := by
        simp [handleConnection, authMiddleware, ht, h0]
      refine ⟨⟨?_, ?_⟩, ?_, ?_⟩
      · rintro ⟨r, hr⟩
        rw [hm] at hr
        cases hr
      · rintro ⟨t', htk, h0', -⟩
        injection htk with he
        exact absurd (he ▸ h0) h0'
      · intro emits joins st' hr
        rw [hm] at hr
        cases hr
      · intro e he
        rw [hm] at he
        injection he with he'
        exact Or.inl he'.symm
    · cases hv : verify t secret with
      | none =>
        have hm : handleConnection verify secret userDb st h sid now =
            .error "Authentication failed" := by
          simp [handleConnection, authMiddleware, ht, h0, hv]
        refine ⟨⟨?_, ?_⟩, ?_, ?_⟩
        · rintro ⟨r, hr⟩
          rw [hm] at hr
          cases hr
        · rintro ⟨t', htk, -, p, hv', -⟩
          injection htk with he
          rw [← he, hv] at hv'
          cases hv'
        · intro emits joins st' hr
          rw [hm] at hr
          cases hr
        · intro e he
          rw [hm] at he
          injection he with he'
          exact Or.inr (Or.inl he'.symm)
      | some p =>
        cases hu : userDb p.userId with
        | none =>
          have hm : handleConnection verify secret userDb st h sid now =
              .error "Invalid or inactive user" := by
            simp [handleConnection, authMiddleware, ht, h0, hv, hu]
          refine ⟨⟨?_, ?_⟩, ?_, ?_⟩
          · rintro ⟨r, hr⟩
            rw [hm] at hr
            cases hr
          · rintro ⟨t', htk, -, p', hv', u, hu', -⟩
            injection htk with he
            rw [← he, hv] at hv'
            injection hv' with hp
            rw [← hp, hu] at hu'
            cases hu'
          · intro emits joins st' hr
            rw [hm] at hr
            cases hr
          · intro e he
            rw [hm] at he
            injection he with he'
            exact Or.inr (Or.inr he'.symm)
        | some u =>
          by_cases hst : u.status = "active"
          · have hm : handleConnection verify secret userDb st h sid now =
                .ok (connectRegister st ⟨sid, u._id, u.fullName, u.avatar⟩ now) := by
              simp [handleConnection, authMiddleware, ht, h0, hv, hu, hst]
            refine ⟨⟨?_, ?_⟩, ?_, ?_⟩
            · intro _
              exact ⟨t, rfl, h0, p, hv, u, hu, hst⟩
            · intro _
              exact ⟨_, hm⟩
            · intro emits joins st' hr
              rw [hm] at hr
              injection hr with hr'
              refine ⟨u, t, p, rfl, hv, hu, hst, ?_⟩
              have := congrArg (fun x => x.2.1) hr'
              simpa [connectRegister] using this.symm
            · intro e he
              rw [hm] at he
              cases he
          · have hm : handleConnection verify secret userDb st h sid now =
                .error "Invalid or inactive user" := by
              simp [handleConnection, authMiddleware, ht, h0, hv, hu, hst]
            refine ⟨⟨?_, ?_⟩, ?_, ?_⟩
            · rintro ⟨r, hr⟩
              rw [hm] at hr
              cases hr
            · rintro ⟨t', htk, -, p', hv', u', hu', hst'⟩
              injection htk with he
              rw [← he, hv] at hv'
              injection hv' with hp
              rw [← hp, hu] at hu'
              injection hu' with hu''
              exact absurd (hu'' ▸ hst') hst
            · intro emits joins st' hr
              rw [hm] at hr
              cases hr
            · intro e he
              rw [hm] at he
              injection he with he'
              exact Or.inr (Or.inr he'.symm)

/-- Witness for C2: a handshake carrying the good token under the sample
verifier connects as the active user u1 and joins exactly the personal
room `user_u1`. -/
theorem socket_auth_spec_witness :
    ∃ u t p, extractToken ⟨some "good", none⟩ = some t ∧
      sampleVerify t "s3cret" = some p ∧ sampleUserDb p.userId = some u ∧
      u.status = "active" ∧
      (connectRegister sampleSocketState ⟨"s7", "u1", "User One", "u1.png"⟩ 77).2.1 =
        ["user_" ++ u._id] :=
  (socket_auth_spec sampleVerify "s3cret" sampleUserDb sampleSocketState
      ⟨some "good", none⟩ "s7" 77).2.1
    (connectRegister sampleSocketState ⟨"s7", "u1", "User One", "u1.png"⟩ 77).1
    (connectRegister sampleSocketState ⟨"s7", "u1", "User One", "u1.png"⟩ 77).2.1
    (connectRegister sampleSocketState ⟨"s7", "u1", "User One", "u1.png"⟩ 77).2.2
    rfl

/-- C10: after the disconnect handler runs on a well-formed state (each
socket id recorded only under its own user, no empty socket sets, unique
map keys, duplicate-free sets), the disconnected socket's id is gone from
`activeConnections`, from every set in `userSockets` (the user's entry
being deleted, and offline status broadcast, exactly when its set becomes
empty) and from every set in `eventRooms`; and `userSockets` still never
maps a user to an empty set. -/
theorem disconnect_cleanup (st : SocketState) (sock : Sock) (now : Nat)
    (hOwn : ∀ p ∈ st.userSockets, sock.id ∈ p.2 → p.1 = sock.userId)
    (hNE : ∀ p ∈ st.userSockets, p.2 ≠ [])
    (hKeysU : (st.userSockets.map Prod.fst).Nodup)
    (hSetU : ∀ p ∈ st.userSockets, p.2.Nodup)
    (hSetR : ∀ p ∈ st.eventRooms, p.2.Nodup)
    (hKeysA : (st.activeConnections.map Prod.fst).Nodup) :
    mapGet (disconnectHandler st sock now).2.activeConnections sock.id = none ∧
    (∀ p ∈ (disconnectHandler st sock now).2.userSockets, sock.id ∉ p.2) ∧
    (∀ p ∈ (disconnectHandler st sock now).2.userSockets, p.2 ≠ []) ∧
    ((⟨.allOthers, "user_status_change",
        .userStatusP sock.userId sock.fullName "offline" now⟩ : Emission)
        ∈ (disconnectHandler st sock now).1 ↔
      mapGet st.userSockets sock.userId = some [sock.id]) ∧
    (mapGet st.userSockets sock.userId = some [sock.id] →
      mapGet (disconnectHandler st sock now).2.userSockets sock.userId = none) ∧
    (∀ p ∈ (disconnectHandler st sock now).2.eventRooms, sock.id ∉ p.2) := by
  have hact : (disconnectHandler st sock now).2.activeConnections =
      mapDelete st.activeConnections sock.id := rfl
  have hrooms : (disconnectHandler st sock now).2.eventRooms =
      st.eventRooms.map (fun p => (p.1, p.2.erase sock.id)) := rfl
  refine ⟨?_, ?_, ?_, ?_, ?_, ?_⟩
  · rw [hact]
    exact mapGet_mapDelete_self hKeysA
  · intro p hp
    cases husr : mapGet st.userSockets sock.userId with
    | none =>
      have husers : (disconnectHandler st sock now).2.userSockets = st.userSockets := by
        simp only [disconnectHandler, husr]
      rw [husers] at hp
      intro hmem
      exact (mapGet_eq_none_iff st.userSockets sock.userId).mp husr p hp (hOwn p hp hmem)
    | some s =>
      by_cases hlen : (s.erase sock.id).length = 0
      · have husers : (disconnectHandler st sock now).2.userSockets =
            mapDelete st.userSockets sock.userId := by
          simp only [disconnectHandler, husr, if_pos hlen]
        rw [husers] at hp
        intro hmem
        exact mem_mapDelete_key_ne hKeysU hp (hOwn p (mem_mapDelete hp) hmem)
      · have husers : (disconnectHandler st sock now).2.userSockets =
            mapSet st.userSockets sock.userId (s.erase sock.id) := by
          simp only [disconnectHandler, husr, if_neg hlen]
        rw [husers] at hp
        rcases mem_mapSet hKeysU hp with hpe | ⟨hpm, hpk⟩
        · rw [hpe]
          exact not_mem_erase_self (hSetU (sock.userId, s) (mapGet_mem husr))
        · intro hmem
          exact hpk (hOwn p hpm hmem)
  · intro p hp
    cases husr : mapGet st.userSockets sock.userId with
    | none =>
      have husers : (disconnectHandler st sock now).2.userSockets = st.userSockets := by
        simp only [disconnectHandler, husr]
      rw [husers] at hp
      exact hNE p hp
    | some s =>
      by_cases hlen : (s.erase sock.id).length = 0
      · have husers : (disconnectHandler st sock now).2.userSockets =
            mapDelete st.userSockets sock.userId := by
          simp only [disconnectHandler, husr, if_pos hlen]
        rw [husers] at hp
        exact hNE p (mem_mapDelete hp)
      · have husers : (disconnectHandler st sock now).2.userSockets =
            mapSet st.userSockets sock.userId (s.erase sock.id) := by
          simp only [disconnectHandler, husr, if_neg hlen]
        rw [husers] at hp
        rcases mem_mapSet hKeysU hp with hpe | ⟨hpm, -⟩
        · rw [hpe]
          simpa [List.length_eq_zero] using hlen
        · exact hNE p hpm
  · constructor
    · intro hin
      cases husr : mapGet st.userSockets sock.userId with
      | none =>
        have hemits : (disconnectHandler st sock now).1 =
            (st.eventRooms.filter (fun p => sock.id ∈ p.2)).map (fun p =>
              ⟨.roomOthers ("event_" ++ p.1), "user_left_event",
                .userLeftEventP sock.userId sock.fullName now⟩) := by
          simp only [disconnectHandler, husr, List.nil_append]
        rw [hemits] at hin
        rcases List.mem_map.mp hin with ⟨q, -, hq⟩
        simp at hq
      | some s =>
        by_cases hlen : (s.erase sock.id).length = 0
        · have hse : s.erase sock.id = [] := List.length_eq_zero.mp hlen
          rcases (erase_eq_nil_iff s sock.id).mp hse with hnil | hsingle
          · exact absurd hnil (hNE (sock.userId, s) (mapGet_mem husr))
          · exact congrArg some hsingle
        · have hemits : (disconnectHandler st sock now).1 =
              (st.eventRooms.filter (fun p => sock.id ∈ p.2)).map (fun p =>
                ⟨.roomOthers ("event_" ++ p.1), "user_left_event",
                  .userLeftEventP sock.userId sock.fullName now⟩) := by
            simp only [disconnectHandler, husr, if_neg hlen, List.nil_append]
          rw [hemits] at hin
          rcases List.mem_map.mp hin with ⟨q, -, hq⟩
          simp at hq
    · intro hm
      have hlen : (([sock.id] : List String).erase sock.id).length = 0 := by simp
      have hemits : (disconnectHandler st sock now).1 =
          [⟨.allOthers, "user_status_change",
             .userStatusP sock.userId sock.fullName "offline" now⟩] ++
            (st.eventRooms.filter (fun p => sock.id ∈ p.2)).map (fun p =>
              ⟨.roomOthers ("event_" ++ p.1), "user_left_event",
                .userLeftEventP sock.userId sock.fullName now⟩) := by
        simp only [disconnectHandler, hm, if_pos hlen]
      rw [hemits]
      exact List.mem_append_left _ (List.mem_cons_self _ _)
  · intro hm
    have hlen : (([sock.id] : List String).erase sock.id).length = 0 := by simp
    have husers : (disconnectHandler st sock now).2.userSockets =
        mapDelete st.userSockets sock.userId := by
      simp only [disconnectHandler, hm, if_pos hlen]
    rw [husers]
    exact mapGet_mapDelete_self hKeysU
  · intro p hp
    rw [hrooms] at hp
    rcases List.mem_map.mp hp with ⟨q, hq, hqe⟩
    rw [← hqe]
    exact not_mem_erase_self (hSetR q hq)

/-- Witness for C10: user u2's only socket s3 disconnects from the sample
state; s3 vanishes from all three maps, u2's entry is deleted, and the
offline broadcast fires. -/
theorem disconnect_cleanup_witness :
    (∀ p ∈ sampleSocketState.userSockets, u2Sock.id ∈ p.2 → p.1 = u2Sock.userId) ∧
    (mapGet (disconnectHandler sampleSocketState u2Sock 123).2.activeConnections
        u2Sock.id = none ∧
     (∀ p ∈ (disconnectHandler sampleSocketState u2Sock 123).2.userSockets,
        u2Sock.id ∉ p.2) ∧
     (∀ p ∈ (disconnectHandler sampleSocketState u2Sock 123).2.userSockets, p.2 ≠ []) ∧
     ((⟨.allOthers, "user_status_change",
         .userStatusP u2Sock.userId u2Sock.fullName "offline" 123⟩ : Emission)
         ∈ (disconnectHandler sampleSocketState u2Sock 123).1 ↔
       mapGet sampleSocketState.userSockets u2Sock.userId = some [u2Sock.id]) ∧
     (mapGet sampleSocketState.userSockets u2Sock.userId = some [u2Sock.id] →
       mapGet (disconnectHandler sampleSocketState u2Sock 123).2.userSockets
         u2Sock.userId = none) ∧
     (∀ p ∈ (disconnectHandler sampleSocketState u2Sock 123).2.eventRooms,
        u2Sock.id ∉ p.2)) :=
  ⟨by decide,
    disconnect_cleanup sampleSocketState u2Sock 123 (by decide) (by decide)
      (by decide) (by decide) (by decide) (by decide)⟩

end EventHub
